import Mathlib

/-!
# Verification of the auto-metadata-gen extraction pipeline

A shallow embedding of the document-metadata extraction pipeline
(`data_utils.py`, `nlp_utils.py`, `metadata_generator.py`) together with
theorems settling the specification claims.

External collaborators (PDF reader, DOCX reader, OCR engine, language
detector, sentence segmenter, TF-IDF scorer, tokenizer, NER engine) are
passed as explicit function parameters, mirroring the spec's treatment of
them as external capabilities with input/output contracts.  Fallible
library calls are modelled with `Except`.  All repository-local logic
(dispatch on extensions, OCR threshold, date normalization, title and
section heuristics, deduplication, selection and ordering of summary
sentences and keywords, record assembly) is embedded faithfully from the
source.
-/

set_option maxRecDepth 16000

namespace AutoMeta

/-! ## Python string primitives -/

/-- Python `s.startswith(pre)` (`String.startsWith`, stated over the
character list so that it evaluates by kernel reduction). -/
def pyStartsWith (pre s : String) : Bool :=
  List.isPrefixOf pre.toList s.toList

/-- Python `s[:n]` (`String.take` over the character list). -/
def pyTake (s : String) (n : ℕ) : String :=
  String.mk (s.toList.take n)

/-- Python `s[n:]` (`String.drop` over the character list). -/
def pyDrop (s : String) (n : ℕ) : String :=
  String.mk (s.toList.drop n)

/-- Characters Python's `str.split()` / `str.strip()` / `\s` treat as
whitespace (the ASCII controls and the Unicode space code points). -/
def pyIsSpace (c : Char) : Bool :=
  c.val = 9 || c.val = 10 || c.val = 11 || c.val = 12 || c.val = 13 || c.val = 32 ||
  c.val = 28 || c.val = 29 || c.val = 30 || c.val = 31 || c.val = 133 || c.val = 160 ||
  c.val = 0x1680 || (0x2000 ≤ c.val && c.val ≤ 0x200A) ||
  c.val = 0x2028 || c.val = 0x2029 || c.val = 0x202F || c.val = 0x205F || c.val = 0x3000

/-- Line-break characters recognized by Python's `str.splitlines()`. -/
def isLineBreak (c : Char) : Bool :=
  c.val = 10 || c.val = 13 || c.val = 11 || c.val = 12 ||
  c.val = 28 || c.val = 29 || c.val = 30 || c.val = 133 ||
  c.val = 0x2028 || c.val = 0x2029

/-- Helper for `pySplit`: accumulate the current token (reversed) and the
tokens seen so far (reversed). -/
def splitWsAux : List Char → List Char → List String → List String
  | [], cur, acc => if cur.isEmpty then acc else String.mk cur.reverse :: acc
  | c :: cs, cur, acc =>
    if pyIsSpace c then
      splitWsAux cs [] (if cur.isEmpty then acc else String.mk cur.reverse :: acc)
    else
      splitWsAux cs (c :: cur) acc

/-- Python `str.split()` with no arguments: split on runs of whitespace,
producing no empty tokens. -/
def pySplit (s : String) : List String :=
  (splitWsAux s.toList [] []).reverse

/-- Python `str.strip()`: remove leading and trailing whitespace. -/
def pyStrip (s : String) : String :=
  String.mk (((s.toList.dropWhile pyIsSpace).reverse.dropWhile pyIsSpace).reverse)

/-- Helper for `pySplitLines`; `cur` is the current line reversed, `acc`
the completed lines reversed, and the Bool records whether the previous
character was `\r` (so a following `\n` is the second half of one `\r\n`
boundary and emits no extra line). -/
def splitLinesAux : List Char → Bool → List Char → List String → List String
  | [], _, cur, acc => if cur.isEmpty then acc else String.mk cur.reverse :: acc
  | c :: cs, lastCR, cur, acc =>
    if c = '\n' && lastCR then
      splitLinesAux cs false cur acc
    else if c = '\r' then
      splitLinesAux cs true [] (String.mk cur.reverse :: acc)
    else if isLineBreak c then
      splitLinesAux cs false [] (String.mk cur.reverse :: acc)
    else
      splitLinesAux cs false (c :: cur) acc

/-- Python `str.splitlines()`: split at line boundaries (`\r\n` counts as
one boundary); a trailing boundary does not produce a final empty line. -/
def pySplitLines (s : String) : List String :=
  (splitLinesAux s.toList false [] []).reverse

/-- Lower-case an ASCII letter (identity otherwise). -/
def asciiLower (c : Char) : Char :=
  if 'A' ≤ c ∧ c ≤ 'Z' then Char.ofNat (c.toNat + 32) else c

/-- Upper-case an ASCII letter (identity otherwise). -/
def asciiUpper (c : Char) : Char :=
  if 'a' ≤ c ∧ c ≤ 'z' then Char.ofNat (c.toNat - 32) else c

/-- Python `str.lower()`, restricted to ASCII case mapping.  The only
strings the pipeline compares lowered extensions against are `.txt`,
`.docx`, `.pdf`, and no non-ASCII character lower-cases into those
letters, so the restriction does not change any decision made. -/
def pyLower (s : String) : String :=
  String.mk (s.toList.map asciiLower)

/-- Helper for `pyTitle`: the Bool says whether the previous character was
alphabetic (Python: cased). -/
def pyTitleAux : Bool → List Char → List Char
  | _, [] => []
  | prevAlpha, c :: cs =>
    (if c.isAlpha then (if prevAlpha then asciiLower c else asciiUpper c) else c)
      :: pyTitleAux c.isAlpha cs

/-- Python `str.title()` (ASCII restriction): the first letter of every
alphabetic run is upper-cased, the rest lower-cased.  It is only applied
to lines matched by `^[A-Z0-9 \-]+$`, which are pure ASCII, where this is
exactly Python's behavior. -/
def pyTitle (s : String) : String :=
  String.mk (pyTitleAux false s.toList)

/-- Extension part of CPython `os.path.splitext(p)[1]` (POSIX rules): the
suffix of the basename starting at its last dot, provided some earlier
character of the basename is not a dot; leading dots never start an
extension. -/
def pyExt (p : String) : String :=
  let bn := (p.toList.reverse.takeWhile (fun c => c ≠ '/')).reverse
  let rest := bn.dropWhile (fun c => c = '.')
  let r := rest.reverse
  let t := r.takeWhile (fun c => c ≠ '.')
  if t.length = r.length then "" else String.mk ('.' :: t.reverse)

/-- CPython `os.path.basename`: everything after the last slash. -/
def pyBasename (p : String) : String :=
  String.mk ((p.toList.reverse.takeWhile (fun c => c ≠ '/')).reverse)

/-- Round a rational to an integer, ties to even (IEEE/Python rounding). -/
def roundHalfEven (q : ℚ) : ℤ :=
  let f := ⌊q⌋
  if q - f < 1/2 then f
  else if (1:ℚ)/2 < q - f then f + 1
  else if f % 2 = 0 then f else f + 1

/-- Python `round(x, 2)`: round to two decimal places, ties to even.
(The reference computes on binary floating point, which can perturb exact
midpoint ties by the usual representation error; the claims do not turn
on such ties.) -/
def pyRound2 (q : ℚ) : ℚ :=
  (roundHalfEven (q * 100) : ℚ) / 100

/-! ## data_utils.py -/

/-- An error raised by an external library call (file access, PDF/DOCX
parsing, rasterization, OCR). -/
inductive LibErr
  | ioError
  | parseError
deriving DecidableEq, Repr

/-- A naive calendar timestamp, standing for Python's `datetime`. -/
structure PyDateTime where
  year : ℕ
  month : ℕ
  day : ℕ
  hour : ℕ
  minute : ℕ
  second : ℕ
deriving DecidableEq, Repr

/-- A raw embedded creation-date value: either a native `datetime` object
or an arbitrary string(-ifiable) value. -/
inductive RawDate
  | dt (d : PyDateTime)
  | str (s : String)
deriving DecidableEq, Repr

/-- The PDF document-information object (`reader.metadata`), when not
`None`: `author` and `creation_date` attributes, each possibly absent. -/
structure PdfInfo where
  author : Option String
  creationDate : Option RawDate
deriving DecidableEq, Repr

/-- DOCX core properties: `author` and `created`. -/
structure DocxProps where
  author : Option String
  created : Option RawDate
deriving DecidableEq, Repr

/-- Gregorian leap year. -/
def isLeap (y : ℕ) : Bool :=
  (y % 4 = 0 && y % 100 ≠ 0) || y % 400 = 0

/-- Days in a month of the proleptic Gregorian calendar. -/
def daysInMonth (y m : ℕ) : ℕ :=
  if m = 2 then (if isLeap y then 29 else 28)
  else if m = 4 ∨ m = 6 ∨ m = 9 ∨ m = 11 then 30
  else 31

/-- Decimal value of a digit list. -/
def digitsToNat (cs : List Char) : ℕ :=
  cs.foldl (fun a c => a * 10 + (c.toNat - 48)) 0

/-- CPython `datetime.strptime(s, "%Y%m%d%H%M%S")` on the canonical
14-digit form: a four-digit year then two digits each for month, day,
hour, minute and second, validated against `datetime`'s ranges (year
1-9999, real calendar day).  (CPython's regex matcher can in addition
accept some shorter digit groupings by backtracking; those inputs are not
produced by the PDF `D:` date convention the code handles and no claim
turns on them.) -/
def parse14 (s : String) : Option PyDateTime :=
  let cs := s.toList
  if cs.length = 14 ∧ cs.all Char.isDigit then
    let y := digitsToNat (cs.take 4)
    let mo := digitsToNat ((cs.drop 4).take 2)
    let d := digitsToNat ((cs.drop 6).take 2)
    let h := digitsToNat ((cs.drop 8).take 2)
    let mi := digitsToNat ((cs.drop 10).take 2)
    let sec := digitsToNat ((cs.drop 12).take 2)
    if 1 ≤ y ∧ mo ≥ 1 ∧ mo ≤ 12 ∧ d ≥ 1 ∧ d ≤ daysInMonth y mo ∧
        h ≤ 23 ∧ mi ≤ 59 ∧ sec ≤ 59 then
      some ⟨y, mo, d, h, mi, sec⟩
    else none
  else none

/-- Zero-pad a number to two digits. -/
def pad2 (n : ℕ) : String :=
  if n < 10 then "0" ++ toString n else toString n

/-- Zero-pad a number to four digits. -/
def pad4 (n : ℕ) : String :=
  if n < 10 then "000" ++ toString n
  else if n < 100 then "00" ++ toString n
  else if n < 1000 then "0" ++ toString n
  else toString n

/-- Python `datetime.isoformat()` for a whole-second timestamp. -/
def isoformat (d : PyDateTime) : String :=
  pad4 d.year ++ "-" ++ pad2 d.month ++ "-" ++ pad2 d.day ++ "T" ++
    pad2 d.hour ++ ":" ++ pad2 d.minute ++ ":" ++ pad2 d.second

/-- The `created_at` normalization of `get_pdf_metadata` (`data_utils.py`
lines 81-93): a missing value gives `""`; a native `datetime` is
ISO-formatted; otherwise the stringified value is stripped of a leading
`D:`, its first 14 characters are parsed as `YYYYMMDDHHMMSS`, and on
parse failure the (stripped) string is kept verbatim.  (Python's
`if raw:` also skips the falsy empty string, which coincides with the
parse-failure fallback returning `""` for it.) -/
def createdAtOfRaw (raw : Option RawDate) : String :=
  match raw with
  | none => ""
  | some (.dt d) => isoformat d
  | some (.str s) =>
    let s2 := if pyStartsWith "D:" s then pyDrop s 2 else s
    match parse14 (pyTake s2 14) with
    | some d => isoformat d
    | none => s2

/-- `get_pdf_metadata`: read the PDF's document-information object and
normalize author and creation date.  The source has no exception handler
around the reader call, so a reader failure propagates; `reader.metadata`
being `None` makes `info` the empty dict, whose lookups all give `""`. -/
def get_pdf_metadata (readPdfInfo : String → Except LibErr (Option PdfInfo))
    (path : String) : Except LibErr (String × String) :=
  match readPdfInfo path with
  | .error e => .error e
  | .ok none => .ok ("", "")
  | .ok (some info) => .ok (info.author.getD "", createdAtOfRaw info.creationDate)

/-- `get_docx_metadata`: read DOCX core properties; a native `datetime`
creation value is ISO-formatted, any other value stringified.  (Python's
`if props.created:` skips only falsy values; the sole falsy string is
`""`, for which the taken and untaken branches agree.) -/
def get_docx_metadata (readDocxProps : String → Except LibErr DocxProps)
    (path : String) : Except LibErr (String × String) :=
  match readDocxProps path with
  | .error e => .error e
  | .ok props =>
    .ok (props.author.getD "",
      match props.created with
      | none => ""
      | some (.dt d) => isoformat d
      | some (.str s) => s)

/-- `get_file_metadata`: dispatch on the lowercased extension; unknown
extensions yield empty-string fields without touching any file. -/
def get_file_metadata (readPdfInfo : String → Except LibErr (Option PdfInfo))
    (readDocxProps : String → Except LibErr DocxProps)
    (path : String) : Except LibErr (String × String) :=
  let ext := pyLower (pyExt path)
  if ext = ".pdf" then get_pdf_metadata readPdfInfo path
  else if ext = ".docx" then get_docx_metadata readDocxProps path
  else .ok ("", "")

/-- `extract_text_from_pdf`: join per-page extracted text (each page's
`extract_text()` may give `None`, replaced by `""`) with newlines and
strip; if fewer than 100 characters remain, discard it and return the
newline-joined per-page OCR output instead (the OCR engine itself may
fail, which propagates). -/
def extract_text_from_pdf (readPdfPages : String → Except LibErr (List (Option String)))
    (rasterOcr : String → Except LibErr (List String))
    (path : String) : Except LibErr String :=
  match readPdfPages path with
  | .error e => .error e
  | .ok pages =>
    let text_pages := pages.map (fun o => o.getD "")
    let joined := pyStrip (String.intercalate "\n" text_pages)
    if joined.length < 100 then
      match rasterOcr path with
      | .error e => .error e
      | .ok ocr_pages => .ok (String.intercalate "\n" ocr_pages)
    else
      .ok joined

/-- An `extract_text` failure: the `ValueError` for an unsupported
extension, or a propagated library error. -/
inductive TextErr
  | unsupported (ext : String)
  | lib (e : LibErr)
deriving DecidableEq, Repr

/-- `extract_text`: dispatch on the lowercased extension of the path to
the `.txt`, `.docx` or `.pdf` extractor; any other extension raises the
unsupported-file-type error. -/
def extract_text (readTxt : String → Except LibErr String)
    (readDocxParas : String → Except LibErr (List String))
    (readPdfPages : String → Except LibErr (List (Option String)))
    (rasterOcr : String → Except LibErr (List String))
    (path : String) : Except TextErr String :=
  let ext := pyLower (pyExt path)
  if ext = ".txt" then (readTxt path).mapError .lib
  else if ext = ".docx" then
    ((readDocxParas path).map (String.intercalate "\n")).mapError .lib
  else if ext = ".pdf" then
    (extract_text_from_pdf readPdfPages rasterOcr path).mapError .lib
  else .error (.unsupported ext)

/-! ## nlp_utils.py -/

/-- Helper for `clean_text`: collapse each whitespace run to one space. -/
def collapseWs : List Char → List Char
  | [] => []
  | c :: cs =>
    if pyIsSpace c then ' ' :: collapseWs (cs.dropWhile pyIsSpace)
    else c :: collapseWs cs
termination_by l => l.length
decreasing_by
· simpa using Nat.lt_succ_of_le (List.dropWhile_sublist pyIsSpace).length_le
· simp

/-- `clean_text`: `re.sub(r"\s+", " ", text).strip()` — replace each
whitespace run by a single space and trim the ends. -/
def clean_text (text : String) : String :=
  pyStrip (String.mk (collapseWs text.toList))

/-- First-occurrence deduplication, as the `seen`-set loop at the end of
`extract_sections` (`nlp_utils.py` lines 141-147). -/
def dedupFirst : List String → List String → List String
  | [], _ => []
  | x :: xs, seen =>
    if x ∈ seen then dedupFirst xs seen else x :: dedupFirst xs (x :: seen)

/-- A character of the class `[A-Z0-9 \-]`. -/
def isCapsChar (c : Char) : Bool :=
  ('A' ≤ c && c ≤ 'Z') || ('0' ≤ c && c ≤ '9') || c = ' ' || c = '-'

/-- `re.match(r'^[A-Z0-9 \-]+$', s)`: every character in the class and at
least one of them; `$` also matches just before one trailing newline
(stripped lines never carry one, but the matcher is embedded fully). -/
def matchesCapsLine (s : String) : Bool :=
  let cs := s.toList
  let core := if cs.getLast? = some '\n' then cs.dropLast else cs
  !core.isEmpty && core.all isCapsChar

/-- `re.match(r'^\d+\. ?[A-Za-z].*', s)`: one or more digits, a dot, an
optional space, then a letter.  (`\d` is embedded as the ASCII digits;
Python also accepts other Unicode decimal digits, which no claim
exercises and which cannot change the properties proved.) -/
def matchesNumbered (s : String) : Bool :=
  let cs := s.toList
  let ds := cs.takeWhile Char.isDigit
  let rest := cs.dropWhile Char.isDigit
  !ds.isEmpty &&
    match rest with
    | '.' :: ' ' :: c :: _ => c.isAlpha
    | '.' :: c :: _ => c.isAlpha
    | _ => false

/-- The heading-candidate scan of `extract_sections`: per stripped line,
skip blanks and lines over 60 characters, emit all-caps lines (that
contain a letter) in title case and numbered headings verbatim. -/
def sectionCandidates : List String → List String
  | [] => []
  | l :: ls =>
    let stripped := pyStrip l
    if stripped.isEmpty || stripped.length > 60 then sectionCandidates ls
    else if matchesCapsLine stripped && stripped.toList.any Char.isAlpha then
      pyTitle stripped :: sectionCandidates ls
    else if matchesNumbered stripped then
      stripped :: sectionCandidates ls
    else sectionCandidates ls

/-- `extract_sections`: heading candidates in scan order, deduplicated
keeping first occurrences. -/
def extract_sections (text : String) : List String :=
  dedupFirst (sectionCandidates (pySplitLines text)) []

/-- The vocabulary-limiting step of the TF-IDF vectorizer with
`max_features = top_n`: keep the `top_n` distinct terms of highest
term frequency.  (The reference library breaks frequency ties in an
internal, unspecified order; the tie-break used here is the candidate
order, and no property proved depends on it.) -/
def limitFeatures (toks : List String) (top_n : ℕ) : List String :=
  let v := dedupFirst toks []
  if v.length ≤ top_n then v
  else (List.insertionSort (fun a b => toks.count b ≤ toks.count a) v).take top_n

/-- `extract_keywords`: clean the text, tokenize it (the vectorizer's
analyzer is an external capability, passed as `tokenize`), drop stop
words, limit the vocabulary to `top_n` features by frequency, and return
the feature names in the vectorizer's sorted-vocabulary order. -/
def extract_keywords (tokenize : String → List String) (stop : List String)
    (text : String) (top_n : ℕ) : List String :=
  let cleaned := clean_text text
  let toks := (tokenize cleaned).filter (fun t => !stop.contains t)
  List.insertionSort (· ≤ ·) (limitFeatures toks top_n)

/-- Python's negative-stop slice `l[-n:]`: the last `n` elements when
`n ≥ 1` (all of them when `n ≥ len(l)`), but the WHOLE list when `n = 0`,
because `-0 == 0` makes the slice `l[0:]`. -/
def pySliceLast {α : Type _} (l : List α) (n : ℕ) : List α :=
  if n = 0 then l else l.drop (l.length - n)

/-- `extract_summary`: clean the text, segment it into sentences (the
sentence-boundary model `seg` is an external capability), strip them and
drop empties; return `""` with no sentences, everything joined when there
are at most `num_sentences`, and otherwise the sentences of highest
TF-IDF row sum (`score`, the external term-weighting engine), selected
via ascending argsort and the negative slice
(`scores.argsort()[-num_sentences:][::-1]`, which at `num_sentences = 0`
wraps around and selects every index), then re-sorted by index
(`sorted(top_idxs)`) and joined. -/
def extract_summary (seg : String → List String) (score : List String → List ℚ)
    (text : String) (num_sentences : ℕ) : String :=
  let cleaned := clean_text text
  let sentences := ((seg cleaned).map pyStrip).filter (fun s => !s.isEmpty)
  if sentences.isEmpty then ""
  else if sentences.length ≤ num_sentences then String.intercalate " " sentences
  else
    let scores := score sentences
    let order := List.insertionSort
      (fun i j => scores.getD i 0 ≤ scores.getD j 0) (List.range sentences.length)
    let top_idxs := (pySliceLast order num_sentences).reverse
    let ordered := List.insertionSort (fun i j => i ≤ j) top_idxs
    String.intercalate " " (ordered.map (fun i => sentences.getD i ""))

/-- `extract_entities`: named-entity recognition (external capability
`ner`) over the whitespace-normalized text. -/
def extract_entities (ner : String → List (String × String)) (text : String) :
    List (String × String) :=
  ner (clean_text text)

/-! ## metadata_generator.py -/

/-- The three mojibake characters the source file of `_detect_title`
appends after a truncated title: its bytes `C3 A2 E2 82 AC C2 A6` decode
(as UTF-8, the encoding Python reads source files with) to `U+00E2
U+20AC U+00A6` — a double-encoded ellipsis, not the single character
U+2026. -/
def sourceEllipsis : String :=
  "\u00E2\u20AC\u00A6"

/-- The title-block scan of `_detect_title`: collect stripped lines until
the first line that is blank after stripping. -/
def titleBlock : List String → List String
  | [] => []
  | l :: ls =>
    let stripped := pyStrip l
    if stripped.isEmpty then [] else stripped :: titleBlock ls

/-- `_detect_title`: join the first non-blank line block with single
spaces; if the candidate exceeds `max_words` words, keep the first
`max_words` words and append the source's (mojibake) ellipsis literal. -/
def detect_title (text : String) (max_words : ℕ) : String :=
  let block := titleBlock (pySplitLines text)
  let title_candidate := pyStrip (String.intercalate " " block)
  let words := pySplit title_candidate
  if max_words < words.length then
    String.intercalate " " (words.take max_words) ++ sourceEllipsis
  else title_candidate

/-- A JSON-serializable metadata value. -/
inductive Value
  | s (v : String)
  | n (v : ℕ)
  | q (v : ℚ)
  | strList (v : List String)
  | pairList (v : List (List String))
deriving DecidableEq

/-- The external NLP capabilities `generate_metadata` consumes: language
detector (`none` models a raised detection error), sentence segmenter,
sentence-corpus TF-IDF row sums, the vectorizer's analyzer, its stop-word
list, and the NER engine. -/
structure NlpEngines where
  detect : String → Option String
  seg : String → List String
  score : List String → List ℚ
  tokenize : String → List String
  stop : List String
  ner : String → List (String × String)

/-- `generate_metadata`: fetch embedded metadata, extract raw text (either
failure aborts the whole call — no partial record), fall back to
`"unknown"` on a language-detection error, then assemble the full record
in the source's key order. -/
def generate_metadata (readTxt : String → Except LibErr String)
    (readDocxParas : String → Except LibErr (List String))
    (readPdfPages : String → Except LibErr (List (Option String)))
    (rasterOcr : String → Except LibErr (List String))
    (readPdfInfo : String → Except LibErr (Option PdfInfo))
    (readDocxProps : String → Except LibErr DocxProps)
    (eng : NlpEngines) (path : String)
    (summary_sentences keyword_count wpm : ℕ) :
    Except TextErr (List (String × Value)) :=
  match get_file_metadata readPdfInfo readDocxProps path with
  | .error e => .error (.lib e)
  | .ok file_meta =>
    match extract_text readTxt readDocxParas readPdfPages rasterOcr path with
    | .error e => .error e
    | .ok raw =>
      let language := (eng.detect raw).getD "unknown"
      let filename := pyBasename path
      let ext := pyExt filename
      let title := detect_title raw 20
      let keywords := extract_keywords eng.tokenize eng.stop raw keyword_count
      let summary := extract_summary eng.seg eng.score raw summary_sentences
      let entities := extract_entities eng.ner raw
      let sections := extract_sections raw
      let word_count := (pySplit raw).length
      let reading_time_min := pyRound2 ((word_count : ℚ) / (wpm : ℚ))
      .ok [("filename", .s filename),
           ("filetype", .s (pyLower ext)),
           ("title", .s title),
           ("word_count", .n word_count),
           ("reading_time_min", .q reading_time_min),
           ("keywords", .strList keywords),
           ("summary", .s summary),
           ("entities", .pairList (entities.map (fun e => [e.1, e.2]))),
           ("sections", .strList sections),
           ("author", .s file_meta.1),
           ("created_at", .s file_meta.2),
           ("language", .s language)]

/-! ## Helper lemmas -/

theorem mem_dedupFirst {l seen : List String} {a : String} :
    a ∈ dedupFirst l seen ↔ a ∈ l ∧ a ∉ seen := by
  induction l generalizing seen with
  | nil => simp [dedupFirst]
  | cons x xs ih =>
    by_cases hx : x ∈ seen
    · simp only [dedupFirst, if_pos hx, ih, List.mem_cons]
      constructor
      · exact fun h => ⟨Or.inr h.1, h.2⟩
      · rintro ⟨rfl | h1, h2⟩
        · exact absurd hx h2
        · exact ⟨h1, h2⟩
    · simp only [dedupFirst, if_neg hx, List.mem_cons, ih, not_or]
      constructor
      · rintro (rfl | ⟨h1, h2, h3⟩)
        · exact ⟨Or.inl rfl, hx⟩
        · exact ⟨Or.inr h1, h3⟩
      · rintro ⟨h1, h2⟩
        by_cases hax : a = x
        · exact Or.inl hax
        · rcases h1 with rfl | h1
          · exact absurd rfl hax
          · exact Or.inr ⟨h1, hax, h2⟩

theorem nodup_dedupFirst (l seen : List String) : (dedupFirst l seen).Nodup := by
  induction l generalizing seen with
  | nil => simp [dedupFirst]
  | cons x xs ih =>
    by_cases hx : x ∈ seen
    · simpa [dedupFirst, hx] using ih seen
    · simp only [dedupFirst, if_neg hx]
      refine List.nodup_cons.mpr ⟨fun hmem => ?_, ih (x :: seen)⟩
      exact (mem_dedupFirst.mp hmem).2 (List.mem_cons_self x seen)

theorem dedupFirst_sublist (l seen : List String) : List.Sublist (dedupFirst l seen) l := by
  induction l generalizing seen with
  | nil => simp [dedupFirst]
  | cons x xs ih =>
    by_cases hx : x ∈ seen
    · simpa [dedupFirst, hx] using (ih seen).trans (List.sublist_cons_self x xs)
    · simpa [dedupFirst, hx] using (ih (x :: seen)).cons₂ x

theorem pairwise_indexOf_dedupFirst (l seen : List String) :
    (dedupFirst l seen).Pairwise (fun a b => l.indexOf a < l.indexOf b) := by
  induction l generalizing seen with
  | nil => simp [dedupFirst]
  | cons x xs ih =>
    by_cases hx : x ∈ seen
    · simp only [dedupFirst, if_pos hx]
      refine (ih seen).imp_of_mem ?_
      intro a b ha hb hab
      have hax : x ≠ a := fun h => (mem_dedupFirst.mp ha).2 (h ▸ hx)
      have hbx : x ≠ b := fun h => (mem_dedupFirst.mp hb).2 (h ▸ hx)
      rw [List.indexOf_cons_ne _ hax, List.indexOf_cons_ne _ hbx]
      omega
    · simp only [dedupFirst, if_neg hx]
      refine List.pairwise_cons.mpr ⟨fun b hb => ?_, ?_⟩
      · have hbx : x ≠ b := fun h =>
          (mem_dedupFirst.mp hb).2 (h ▸ List.mem_cons_self x seen)
        rw [List.indexOf_cons_self, List.indexOf_cons_ne _ hbx]
        exact Nat.succ_pos _
      · refine (ih (x :: seen)).imp_of_mem ?_
        intro a b ha hb hab
        have hax : x ≠ a := fun h =>
          (mem_dedupFirst.mp ha).2 (h ▸ List.mem_cons_self x seen)
        have hbx : x ≠ b := fun h =>
          (mem_dedupFirst.mp hb).2 (h ▸ List.mem_cons_self x seen)
        rw [List.indexOf_cons_ne _ hax, List.indexOf_cons_ne _ hbx]
        omega

/-! ## Claim theorems -/

/-- C6: on the input `"INTRODUCTION\n1. First Section\nSome paragraph.\nCONCLUSION"`,
`extract_sections` returns exactly `["Introduction", "1. First Section",
"Conclusion"]` — all-caps heading lines in title case, numbered headings
verbatim, non-heading lines ignored. -/
theorem claim_C6_sections_concrete :
    extract_sections "INTRODUCTION\n1. First Section\nSome paragraph.\nCONCLUSION" =
      ["Introduction", "1. First Section", "Conclusion"] := by
  decide

/-- C2 (evaluation at the failing input): on a 25-word first-block title
with `max_words = 20`, `_detect_title` keeps the first 20 words but then
appends the source's three-character mojibake suffix (U+00E2 U+20AC
U+00A6) rather than a single ellipsis character: the result is longer
than the 20 truncated words by three characters, none of which is
U+2026. -/
theorem claim_C2_code_eval :
    detect_title
        "alpha beta gamma delta epsilon zeta eta theta iota kappa lamda mu nu xi omicron pi rho sigma tau upsilon phi chi psi omega extra"
        20 =
      "alpha beta gamma delta epsilon zeta eta theta iota kappa lamda mu nu xi omicron pi rho sigma tau upsilon" ++
        sourceEllipsis ∧
    sourceEllipsis.length = 3 ∧
    sourceEllipsis ≠ "…" ∧
    (detect_title
        "alpha beta gamma delta epsilon zeta eta theta iota kappa lamda mu nu xi omicron pi rho sigma tau upsilon phi chi psi omega extra"
        20).length =
      ("alpha beta gamma delta epsilon zeta eta theta iota kappa lamda mu nu xi omicron pi rho sigma tau upsilon").length + 3 := by
  refine ⟨by decide, by decide, by decide, by decide⟩

/-- C10: in the creation-date normalization of `get_pdf_metadata`, the
`D:`-stripping and the 14-character `YYYYMMDDHHMMSS` parse are
independent: a string that does not begin with `D:` still has its first 14
characters parsed and ISO-formatted, the stringified value being kept
verbatim only when that parse fails; in particular the plain
`"20240101120000"` normalizes to ISO-8601. -/
theorem claim_C10_date_parse :
    (∀ s d, ¬ (pyStartsWith "D:" s = true) → parse14 (pyTake s 14) = some d →
      createdAtOfRaw (some (.str s)) = isoformat d) ∧
    (∀ s, ¬ (pyStartsWith "D:" s = true) → parse14 (pyTake s 14) = none →
      createdAtOfRaw (some (.str s)) = s) ∧
    createdAtOfRaw (some (.str "20240101120000")) = "2024-01-01T12:00:00" := by
  refine ⟨?_, ?_, by decide⟩
  · intro s d hs hp
    simp [createdAtOfRaw, hs, hp]
  · intro s hs hp
    simp [createdAtOfRaw, hs, hp]

/-- Witness for C10 at the concrete prefix-free date string. -/
theorem claim_C10_date_parse_witness :
    createdAtOfRaw (some (.str "20240101120000")) =
      isoformat ⟨2024, 1, 1, 12, 0, 0⟩ :=
  claim_C10_date_parse.1 "20240101120000" ⟨2024, 1, 1, 12, 0, 0⟩
    (by decide) (by decide)

/-- C1 counterexample: with a PDF container whose metadata read fails,
`get_file_metadata` on a `.pdf` path propagates the error instead of
returning an empty-string record — the source wraps only the date parse
in an exception handler, not the reader calls. -/
theorem claim_C1_counterexample :
    get_file_metadata (fun _ => Except.error LibErr.ioError)
        (fun _ => Except.ok ⟨none, none⟩) "doc.pdf" =
      Except.error LibErr.ioError :=
  rfl

/-- C1 amended: `get_file_metadata` returns a (string, string) record
whenever the container metadata reads it performs succeed — date-field
parse failures degrade to fallback strings, never to an error — and for
extensions other than `.pdf`/`.docx` it always succeeds with empty
strings; but an error opening or reading the PDF/DOCX container
propagates as a raised error. -/
theorem claim_C1_amended (rpi : String → Except LibErr (Option PdfInfo))
    (rdp : String → Except LibErr DocxProps) (path : String) :
    ((get_file_metadata rpi rdp path).isOk = true ↔
      (pyLower (pyExt path) = ".pdf" → (rpi path).isOk = true) ∧
      (pyLower (pyExt path) = ".docx" → (rdp path).isOk = true)) ∧
    (pyLower (pyExt path) ≠ ".pdf" → pyLower (pyExt path) ≠ ".docx" →
      get_file_metadata rpi rdp path = Except.ok ("", "")) := by
  constructor
  · by_cases hpdf : pyLower (pyExt path) = ".pdf"
    · have hnd : pyLower (pyExt path) ≠ ".docx" := by rw [hpdf]; decide
      cases hr : rpi path with
      | error e =>
        simp [get_file_metadata, get_pdf_metadata, hpdf, hr, Except.isOk, Except.toBool, hnd]
      | ok info =>
        cases info with
        | none =>
          simp [get_file_metadata, get_pdf_metadata, hpdf, hr, Except.isOk, Except.toBool, hnd]
        | some i =>
          simp [get_file_metadata, get_pdf_metadata, hpdf, hr, Except.isOk, Except.toBool, hnd]
    · by_cases hdocx : pyLower (pyExt path) = ".docx"
      · cases hr : rdp path with
        | error e =>
          simp [get_file_metadata, get_docx_metadata, hpdf, hdocx, hr,
            Except.isOk, Except.toBool]
        | ok props =>
          simp [get_file_metadata, get_docx_metadata, hpdf, hdocx, hr,
            Except.isOk, Except.toBool]
      · simp [get_file_metadata, hpdf, hdocx, Except.isOk, Except.toBool]
  · intro h1 h2
    simp [get_file_metadata, h1, h2]

/-- Witness for C1's amended statement: a `.txt` path succeeds with empty
fields regardless of the (here failing) container readers. -/
theorem claim_C1_amended_witness :
    get_file_metadata (fun _ => Except.error LibErr.ioError)
        (fun _ => Except.error LibErr.ioError) "notes.txt" =
      Except.ok ("", "") :=
  (claim_C1_amended (fun _ => Except.error LibErr.ioError)
      (fun _ => Except.error LibErr.ioError) "notes.txt").2
    (by decide) (by decide)

/-- C9: `extract_sections` is deterministic, its result has no duplicate
strings, every heading candidate of the scan is represented, and the
retained headings are ordered by (and sit at) their first occurrences in
the scan order of the text's lines. -/
theorem claim_C9_sections_dedup (text : String) :
    extract_sections text = extract_sections text ∧
    (extract_sections text).Nodup ∧
    (∀ s, s ∈ extract_sections text ↔ s ∈ sectionCandidates (pySplitLines text)) ∧
    (extract_sections text).Pairwise
      (fun a b => (sectionCandidates (pySplitLines text)).indexOf a <
        (sectionCandidates (pySplitLines text)).indexOf b) :=
  ⟨rfl, nodup_dedupFirst _ _,
    fun s => by simp [extract_sections, mem_dedupFirst],
    pairwise_indexOf_dedupFirst _ _⟩

/-- Witness for C9 at a text with a repeated heading. -/
theorem claim_C9_sections_dedup_witness :
    (extract_sections "INTRO\nbody text here.\nINTRO\n1. A start").Nodup :=
  (claim_C9_sections_dedup "INTRO\nbody text here.\nINTRO\n1. A start").2.1

/-- C3: `extract_text` fails with the unsupported-file-type error exactly
when the lowercased extension is not `.txt`, `.docx` or `.pdf`, and for
each supported extension it returns the corresponding extractor's result
(so it never raises the unsupported-format error there, whatever the
extractor does). -/
theorem claim_C3_dispatch (rt : String → Except LibErr String)
    (rd : String → Except LibErr (List String))
    (rp : String → Except LibErr (List (Option String)))
    (ro : String → Except LibErr (List String)) (path : String) :
    ((∃ s, extract_text rt rd rp ro path = Except.error (.unsupported s)) ↔
      (pyLower (pyExt path) ≠ ".txt" ∧ pyLower (pyExt path) ≠ ".docx" ∧
        pyLower (pyExt path) ≠ ".pdf")) ∧
    (pyLower (pyExt path) = ".txt" →
      extract_text rt rd rp ro path = (rt path).mapError TextErr.lib) ∧
    (pyLower (pyExt path) = ".docx" →
      extract_text rt rd rp ro path =
        ((rd path).map (String.intercalate "\n")).mapError TextErr.lib) ∧
    (pyLower (pyExt path) = ".pdf" →
      extract_text rt rd rp ro path =
        (extract_text_from_pdf rp ro path).mapError TextErr.lib) := by
  by_cases h1 : pyLower (pyExt path) = ".txt"
  · refine ⟨?_, fun _ => by simp [extract_text, h1], ?_, ?_⟩
    · simp only [h1]
      constructor
      · rintro ⟨s, hs⟩
        rw [show extract_text rt rd rp ro path = (rt path).mapError TextErr.lib from
          by simp [extract_text, h1]] at hs
        cases h : rt path <;> simp [h, Except.mapError] at hs
      · rintro ⟨h, -⟩; exact absurd rfl h
    · intro h2; rw [h1] at h2; exact absurd h2 (by decide)
    · intro h2; rw [h1] at h2; exact absurd h2 (by decide)
  · by_cases h2 : pyLower (pyExt path) = ".docx"
    · refine ⟨?_, fun h => absurd h h1, fun _ => by simp [extract_text, h1, h2], ?_⟩
      · simp only [h2]
        constructor
        · rintro ⟨s, hs⟩
          rw [show extract_text rt rd rp ro path =
              ((rd path).map (String.intercalate "\n")).mapError TextErr.lib from
            by simp [extract_text, h1, h2]] at hs
          cases h : rd path <;> simp [h, Except.mapError, Except.map] at hs
        · rintro ⟨-, h, -⟩; exact absurd rfl h
      · intro h3; rw [h2] at h3; exact absurd h3 (by decide)
    · by_cases h3 : pyLower (pyExt path) = ".pdf"
      · refine ⟨?_, fun h => absurd h h1, fun h => absurd h h2,
          fun _ => by simp [extract_text, h1, h2, h3]⟩
        simp only [h3]
        constructor
        · rintro ⟨s, hs⟩
          rw [show extract_text rt rd rp ro path =
              (extract_text_from_pdf rp ro path).mapError TextErr.lib from
            by simp [extract_text, h1, h2, h3]] at hs
          cases h : extract_text_from_pdf rp ro path <;>
            simp [h, Except.mapError] at hs
        · rintro ⟨-, -, h⟩; exact absurd rfl h
      · refine ⟨?_, fun h => absurd h h1, fun h => absurd h h2, fun h => absurd h h3⟩
        constructor
        · exact fun _ => ⟨h1, h2, h3⟩
        · exact fun _ => ⟨pyLower (pyExt path), by simp [extract_text, h1, h2, h3]⟩

/-- Witness for C3: a `.md` path is rejected with the unsupported-format
error naming its extension, and a `.TXT` path (case-insensitively)
dispatches to the plain-text reader. -/
theorem claim_C3_dispatch_witness :
    (∃ s, extract_text (fun _ => Except.ok "body") (fun _ => Except.ok [])
        (fun _ => Except.ok []) (fun _ => Except.ok []) "notes.md" =
        Except.error (.unsupported s)) ∧
    extract_text (fun _ => Except.ok "body") (fun _ => Except.ok [])
        (fun _ => Except.ok []) (fun _ => Except.ok []) "NOTES.TXT" =
      ((fun (_ : String) => Except.ok "body") "NOTES.TXT").mapError TextErr.lib :=
  ⟨(claim_C3_dispatch _ _ _ _ "notes.md").1.mpr ⟨by decide, by decide, by decide⟩,
    (claim_C3_dispatch _ _ _ _ "NOTES.TXT").2.1 (by decide)⟩

/-- C4: when the stripped newline-joined per-page text of a PDF has at
least 100 characters, `extract_text_from_pdf` returns exactly that text
and its result does not depend on the OCR engine at all (the OCR path is
not invoked); when it has fewer than 100 characters the extracted text is
discarded and the newline-joined per-page OCR output is returned. -/
theorem claim_C4_ocr_threshold
    (rp : String → Except LibErr (List (Option String)))
    (ocr1 ocr2 : String → Except LibErr (List String))
    (path : String) (pages : List (Option String))
    (hp : rp path = Except.ok pages) :
    (100 ≤ (pyStrip (String.intercalate "\n" (pages.map (fun o => o.getD "")))).length →
      extract_text_from_pdf rp ocr1 path =
        Except.ok (pyStrip (String.intercalate "\n" (pages.map (fun o => o.getD "")))) ∧
      extract_text_from_pdf rp ocr1 path = extract_text_from_pdf rp ocr2 path) ∧
    ((pyStrip (String.intercalate "\n" (pages.map (fun o => o.getD "")))).length < 100 →
      ∀ ocr_pages, ocr1 path = Except.ok ocr_pages →
        extract_text_from_pdf rp ocr1 path =
          Except.ok (String.intercalate "\n" ocr_pages)) := by
  constructor
  · intro h
    have hlt : ¬ ((pyStrip (String.intercalate "\n"
        (pages.map (fun o => o.getD "")))).length < 100) := by omega
    constructor <;> simp [extract_text_from_pdf, hp, hlt]
  · intro h ocr_pages ho
    simp [extract_text_from_pdf, hp, h, ho]

/-- A 120-character page text used to exercise the no-OCR branch. -/
def sample120 : String :=
  String.mk (List.replicate 120 'x')

/-- Witness for C4: a reader yielding 120 characters of page text keeps
the extracted text (whatever the OCR engines would say), and a reader
yielding a short page falls back to the OCR output. -/
theorem claim_C4_ocr_threshold_witness :
    (extract_text_from_pdf (fun _ => Except.ok [some sample120])
        (fun _ => Except.ok ["ocr result"]) "doc.pdf" =
      Except.ok (pyStrip (String.intercalate "\n"
        ([some sample120].map (fun o => o.getD "")))) ∧
      extract_text_from_pdf (fun _ => Except.ok [some sample120])
          (fun _ => Except.ok ["ocr result"]) "doc.pdf" =
        extract_text_from_pdf (fun _ => Except.ok [some sample120])
          (fun _ => Except.ok ["different"]) "doc.pdf") ∧
    extract_text_from_pdf (fun _ => Except.ok [some "hi"])
        (fun _ => Except.ok ["ocr result"]) "scan.pdf" =
      Except.ok (String.intercalate "\n" ["ocr result"]) :=
  ⟨(claim_C4_ocr_threshold _ _ (fun _ => Except.ok ["different"]) "doc.pdf"
      [some sample120] rfl).1 (by decide),
    (claim_C4_ocr_threshold _ _ (fun _ => Except.ok ["ocr result"]) "scan.pdf"
      [some "hi"] rfl).2 (by decide) ["ocr result"] rfl⟩

theorem limitFeatures_length_le (toks : List String) (n : ℕ) :
    (limitFeatures toks n).length ≤ n := by
  unfold limitFeatures
  dsimp only
  split
  · assumption
  · simp only [List.length_take]
    omega

theorem nodup_limitFeatures (toks : List String) (n : ℕ) :
    (limitFeatures toks n).Nodup := by
  unfold limitFeatures
  dsimp only
  split
  · exact nodup_dedupFirst _ _
  · exact List.Nodup.sublist (List.take_sublist _ _)
      ((List.perm_insertionSort _ _).nodup_iff.mpr (nodup_dedupFirst _ _))

theorem limitFeatures_ne_nil (toks : List String) (n : ℕ) (hn : 0 < n)
    (ht : toks ≠ []) : limitFeatures toks n ≠ [] := by
  have hv : dedupFirst toks [] ≠ [] := by
    obtain ⟨x, hx⟩ := List.exists_mem_of_ne_nil toks ht
    exact List.ne_nil_of_mem (mem_dedupFirst.mpr ⟨hx, by simp⟩)
  unfold limitFeatures
  dsimp only
  split
  · exact hv
  · intro hnil
    have h0 := congrArg List.length hnil
    simp only [List.length_take, List.length_insertionSort, List.length_nil] at h0
    omega

/-- C8: `extract_keywords` returns at most `top_n` strings, pairwise
distinct and in strictly increasing lexical (sorted-vocabulary) order —
not weight order — and its result is non-empty whenever the analyzed
document has at least one non-stop-word token. -/
theorem claim_C8_keywords (tokenize : String → List String) (stop : List String)
    (text : String) (top_n : ℕ) (h : 0 < top_n) :
    (extract_keywords tokenize stop text top_n).length ≤ top_n ∧
    (extract_keywords tokenize stop text top_n).Sorted (· < ·) ∧
    ((tokenize (clean_text text)).filter (fun t => !stop.contains t) ≠ [] →
      extract_keywords tokenize stop text top_n ≠ []) := by
  have hkw : extract_keywords tokenize stop text top_n =
      List.insertionSort (· ≤ ·)
        (limitFeatures ((tokenize (clean_text text)).filter (fun t => !stop.contains t)) top_n) :=
    rfl
  have hperm := List.perm_insertionSort (· ≤ ·)
    (limitFeatures ((tokenize (clean_text text)).filter (fun t => !stop.contains t)) top_n)
  refine ⟨?_, ?_, ?_⟩
  · rw [hkw, hperm.length_eq]
    exact limitFeatures_length_le _ _
  · have hsorted : (extract_keywords tokenize stop text top_n).Sorted (· ≤ ·) := by
      rw [hkw]; exact List.sorted_insertionSort _ _
    have hnodup : (extract_keywords tokenize stop text top_n).Nodup := by
      rw [hkw]; exact hperm.nodup_iff.mpr (nodup_limitFeatures _ _)
    exact hsorted.lt_of_le hnodup
  · intro ht hnil
    rw [hkw] at hnil
    rw [hnil] at hperm
    exact limitFeatures_ne_nil _ _ h ht hperm.symm.eq_nil

/-- Witness for C8 with a concrete analyzer, stop list and limit. -/
theorem claim_C8_keywords_witness :
    (extract_keywords (fun _ => ["beta", "alpha", "beta"]) ["zz"] "any doc" 2).length ≤ 2 ∧
    (extract_keywords (fun _ => ["beta", "alpha", "beta"]) ["zz"] "any doc" 2).Sorted (· < ·) ∧
    (((fun (_ : String) => ["beta", "alpha", "beta"]) (clean_text "any doc")).filter
        (fun t => !(["zz"].contains t)) ≠ [] →
      extract_keywords (fun _ => ["beta", "alpha", "beta"]) ["zz"] "any doc" 2 ≠ []) :=
  claim_C8_keywords (fun _ => ["beta", "alpha", "beta"]) ["zz"] "any doc" 2 (by decide)

/-- The sentence list `extract_summary` works on: the segmented cleaned
text, each sentence stripped, empty sentences dropped. -/
def summarySentences (seg : String → List String) (text : String) : List String :=
  ((seg (clean_text text)).map pyStrip).filter (fun s => !s.isEmpty)

/-- The body of `extract_summary` once the sentence list is built; used to
state and prove C7 with the sentence list abstracted
(`extract_summary seg score text n` is definitionally
`summaryCore score (summarySentences seg text) n`). -/
def summaryCore (score : List String → List ℚ) (sentences : List String)
    (num_sentences : ℕ) : String :=
  if sentences.isEmpty then ""
  else if sentences.length ≤ num_sentences then String.intercalate " " sentences
  else
    let scores := score sentences
    let order := List.insertionSort
      (fun i j => scores.getD i 0 ≤ scores.getD j 0) (List.range sentences.length)
    let top_idxs := (pySliceLast order num_sentences).reverse
    let ordered := List.insertionSort (fun i j => i ≤ j) top_idxs
    String.intercalate " " (ordered.map (fun i => sentences.getD i ""))

theorem map_getD_range {α : Type _} (l : List α) (d : α) :
    (List.range l.length).map (fun i => l.getD i d) = l := by
  apply List.ext_getElem
  · simp
  · intro i h1 h2
    simp [List.getD, List.getElem?_eq_getElem h2]

theorem summaryCore_spec (score : List String → List ℚ) (sents : List String)
    (n : ℕ) :
    (sents = [] → summaryCore score sents n = "") ∧
    (sents ≠ [] → sents.length ≤ n →
      summaryCore score sents n = String.intercalate " " sents) ∧
    (0 < n → n < sents.length → ∃ sel : List ℕ,
      sel.length = n ∧ sel.Sorted (· ≤ ·) ∧ sel.Nodup ∧
      (∀ i ∈ sel, i < sents.length) ∧
      (∀ i ∈ sel, ∀ j, j < sents.length → j ∉ sel →
        (score sents).getD j 0 ≤ (score sents).getD i 0) ∧
      summaryCore score sents n =
        String.intercalate " " (sel.map (fun i => sents.getD i ""))) ∧
    (n = 0 → summaryCore score sents n = String.intercalate " " sents) := by
  refine ⟨fun h => by simp [summaryCore, h], fun hne hle => ?_,
    fun hn hlt => ?_, fun hn0 => ?_⟩
  · have h1 : ¬ (sents.isEmpty = true) := by
      simpa [List.isEmpty_iff] using hne
    simp [summaryCore, h1, hle]
  · have hne : sents ≠ [] := List.ne_nil_of_length_pos (by omega)
    have h1 : ¬ (sents.isEmpty = true) := by
      simpa [List.isEmpty_iff] using hne
    have h2 : ¬ (sents.length ≤ n) := by omega
    haveI htot : IsTotal ℕ (fun i j => (score sents).getD i 0 ≤ (score sents).getD j 0) :=
      ⟨fun a b => le_total _ _⟩
    haveI htrans : IsTrans ℕ (fun i j => (score sents).getD i 0 ≤ (score sents).getD j 0) :=
      ⟨fun a b c hab hbc => le_trans hab hbc⟩
    have hperm := List.perm_insertionSort
      (fun i j => (score sents).getD i 0 ≤ (score sents).getD j 0)
      (List.range sents.length)
    have hsorted := List.sorted_insertionSort
      (fun i j => (score sents).getD i 0 ≤ (score sents).getD j 0)
      (List.range sents.length)
    have hordlen : (List.insertionSort
        (fun i j => (score sents).getD i 0 ≤ (score sents).getD j 0)
        (List.range sents.length)).length = sents.length :=
      hperm.length_eq.trans (List.length_range _)
    have hnord : (List.insertionSort
        (fun i j => (score sents).getD i 0 ≤ (score sents).getD j 0)
        (List.range sents.length)).Nodup :=
      hperm.nodup_iff.mpr (List.nodup_range _)
    have hslice : pySliceLast (List.insertionSort
        (fun i j => (score sents).getD i 0 ≤ (score sents).getD j 0)
        (List.range sents.length)) n =
        (List.insertionSort
        (fun i j => (score sents).getD i 0 ≤ (score sents).getD j 0)
        (List.range sents.length)).drop (sents.length - n) := by
      simp only [pySliceLast]
      rw [if_neg (Nat.pos_iff_ne_zero.mp hn), hordlen]
    have hselperm := List.perm_insertionSort (fun i j => i ≤ j)
      (((List.insertionSort
        (fun i j => (score sents).getD i 0 ≤ (score sents).getD j 0)
        (List.range sents.length)).drop (sents.length - n)).reverse)
    have hmem : ∀ i, i ∈ List.insertionSort (fun i j => i ≤ j)
        (((List.insertionSort
          (fun i j => (score sents).getD i 0 ≤ (score sents).getD j 0)
          (List.range sents.length)).drop (sents.length - n)).reverse) ↔
        i ∈ (List.insertionSort
          (fun i j => (score sents).getD i 0 ≤ (score sents).getD j 0)
          (List.range sents.length)).drop (sents.length - n) := by
      intro i
      rw [List.mem_insertionSort, List.mem_reverse]
    refine ⟨List.insertionSort (fun i j => i ≤ j)
      (((List.insertionSort
        (fun i j => (score sents).getD i 0 ≤ (score sents).getD j 0)
        (List.range sents.length)).drop (sents.length - n)).reverse),
      ?_, ?_, ?_, ?_, ?_, ?_⟩
    · rw [hselperm.length_eq, List.length_reverse, List.length_drop, hordlen]
      omega
    · exact List.sorted_insertionSort _ _
    · exact hselperm.nodup_iff.mpr
        (List.nodup_reverse.mpr (List.Nodup.sublist (List.drop_sublist _ _) hnord))
    · intro i hi
      rw [hmem] at hi
      have : i ∈ List.range sents.length :=
        hperm.subset ((List.drop_sublist _ _).subset hi)
      exact List.mem_range.mp this
    · intro i hi j hjlt hj
      rw [hmem] at hi
      rw [hmem] at hj
      have hjord : j ∈ List.insertionSort
          (fun i j => (score sents).getD i 0 ≤ (score sents).getD j 0)
          (List.range sents.length) :=
        hperm.mem_iff.mpr (List.mem_range.mpr hjlt)
      have hsplit : j ∈ (List.insertionSort
          (fun i j => (score sents).getD i 0 ≤ (score sents).getD j 0)
          (List.range sents.length)).take (sents.length - n) ++
            (List.insertionSort
          (fun i j => (score sents).getD i 0 ≤ (score sents).getD j 0)
          (List.range sents.length)).drop (sents.length - n) := by
        rw [List.take_append_drop]
        exact hjord
      have hjtake : j ∈ (List.insertionSort
          (fun i j => (score sents).getD i 0 ≤ (score sents).getD j 0)
          (List.range sents.length)).take (sents.length - n) := by
        rcases List.mem_append.mp hsplit with h | h
        · exact h
        · exact absurd h hj
      exact hsorted.rel_of_mem_take_of_mem_drop hjtake hi
    · have h3 : ¬ (sents.isEmpty = true) := h1
      simp only [summaryCore, h3, h2, if_false, if_neg]
      rw [hslice]
      rfl
  · subst hn0
    by_cases hemp : sents = []
    · rw [hemp]
      rfl
    · have h1 : ¬ (sents.isEmpty = true) := by
        simpa [List.isEmpty_iff] using hemp
      have hpos : 0 < sents.length := List.length_pos.mpr hemp
      have h2 : ¬ (sents.length ≤ 0) := by omega
      haveI htot : IsTotal ℕ (fun i j => (score sents).getD i 0 ≤ (score sents).getD j 0) :=
        ⟨fun a b => le_total _ _⟩
      haveI htrans : IsTrans ℕ (fun i j => (score sents).getD i 0 ≤ (score sents).getD j 0) :=
        ⟨fun a b c hab hbc => le_trans hab hbc⟩
      have hperm := List.perm_insertionSort
        (fun i j => (score sents).getD i 0 ≤ (score sents).getD j 0)
        (List.range sents.length)
      have hslice0 : pySliceLast (List.insertionSort
          (fun i j => (score sents).getD i 0 ≤ (score sents).getD j 0)
          (List.range sents.length)) 0 =
          List.insertionSort
          (fun i j => (score sents).getD i 0 ≤ (score sents).getD j 0)
          (List.range sents.length) := by
        simp [pySliceLast]
      have hs1 : List.Sorted (· ≤ ·) (List.insertionSort (fun i j => i ≤ j)
          ((List.insertionSort
            (fun i j => (score sents).getD i 0 ≤ (score sents).getD j 0)
            (List.range sents.length)).reverse)) :=
        List.sorted_insertionSort _ _
      have hs2 : List.Sorted (· ≤ ·) (List.range sents.length) :=
        (List.pairwise_lt_range _).imp (fun hab => le_of_lt hab)
      have hkey : List.insertionSort (fun i j => i ≤ j)
          ((List.insertionSort
            (fun i j => (score sents).getD i 0 ≤ (score sents).getD j 0)
            (List.range sents.length)).reverse) = List.range sents.length :=
        List.eq_of_perm_of_sorted
          ((List.perm_insertionSort _ _).trans ((List.reverse_perm _).trans hperm))
          hs1 hs2
      simp only [summaryCore, h1, h2, if_false, if_neg]
      rw [hslice0, hkey, map_getD_range]
      rfl

/-- C7 (amended): `extract_summary` returns the empty string when there
are no non-empty sentences; all sentences joined in order when there are
at most `num_sentences` of them; for `num_sentences ≥ 1` and more
sentences than that, exactly `num_sentences` sentences whose scores
dominate every unselected sentence's score, re-ordered ascending by
index (original document order) and joined with single spaces; and at
`num_sentences = 0` Python's `[-0:]` slice selects every index, so every
sentence is returned in order rather than none. -/
theorem claim_C7_summary (seg : String → List String)
    (score : List String → List ℚ) (text : String) (n : ℕ) :
    (summarySentences seg text = [] → extract_summary seg score text n = "") ∧
    (summarySentences seg text ≠ [] → (summarySentences seg text).length ≤ n →
      extract_summary seg score text n =
        String.intercalate " " (summarySentences seg text)) ∧
    (0 < n → n < (summarySentences seg text).length → ∃ sel : List ℕ,
      sel.length = n ∧ sel.Sorted (· ≤ ·) ∧ sel.Nodup ∧
      (∀ i ∈ sel, i < (summarySentences seg text).length) ∧
      (∀ i ∈ sel, ∀ j, j < (summarySentences seg text).length → j ∉ sel →
        (score (summarySentences seg text)).getD j 0 ≤
          (score (summarySentences seg text)).getD i 0) ∧
      extract_summary seg score text n =
        String.intercalate " "
          (sel.map (fun i => (summarySentences seg text).getD i ""))) ∧
    (n = 0 → extract_summary seg score text n =
      String.intercalate " " (summarySentences seg text)) := by
  have he : extract_summary seg score text n =
      summaryCore score (summarySentences seg text) n := rfl
  rw [he]
  exact summaryCore_spec score (summarySentences seg text) n

/-- C7 counterexample: at `num_sentences = 0` with two non-empty
sentences, the program is in the "otherwise" case of the claim
(sentence count exceeds `num_sentences`), yet Python's
`scores.argsort()[-0:]` slice selects every index, so `extract_summary`
returns both sentences — not "exactly `num_sentences`" (zero) sentences,
whose join would be the empty string. -/
theorem claim_C7_counterexample :
    extract_summary (fun _ => ["A one.", "B two."]) (fun _ => [1, 2])
        "ignored" 0 = "A one. B two." ∧
    extract_summary (fun _ => ["A one.", "B two."]) (fun _ => [1, 2])
        "ignored" 0 ≠ "" := by
  exact ⟨by decide, by decide⟩

/-- Witness for C7: two concrete sentences under a three-sentence budget
come back joined in original order. -/
theorem claim_C7_summary_witness :
    extract_summary (fun _ => ["One here.", "Two here."]) (fun _ => [1, 2])
        "ignored" 3 =
      String.intercalate " "
        (summarySentences (fun _ => ["One here.", "Two here."]) "ignored") :=
  (claim_C7_summary (fun _ => ["One here.", "Two here."]) (fun _ => [1, 2])
      "ignored" 3).2.1 (by decide) (by decide)

/-- C5: whenever `generate_metadata` succeeds it returns a record with
exactly the twelve keys `filename, filetype, title, word_count,
reading_time_min, keywords, summary, entities, sections, author,
created_at, language` in that order, where `word_count` is the number of
whitespace-delimited tokens of the raw text, `reading_time_min` is
`round(word_count / wpm, 2)`, and `filetype` is the lowercased extension
of the input path including its leading dot. -/
theorem claim_C5_record (rt : String → Except LibErr String)
    (rd : String → Except LibErr (List String))
    (rp : String → Except LibErr (List (Option String)))
    (ro : String → Except LibErr (List String))
    (rpi : String → Except LibErr (Option PdfInfo))
    (rdp : String → Except LibErr DocxProps)
    (eng : NlpEngines) (path : String) (ss kc wpm : ℕ)
    (fm : String × String) (raw : String)
    (hf : get_file_metadata rpi rdp path = Except.ok fm)
    (hr : extract_text rt rd rp ro path = Except.ok raw) :
    ∃ m, generate_metadata rt rd rp ro rpi rdp eng path ss kc wpm = Except.ok m ∧
      m.map Prod.fst = ["filename", "filetype", "title", "word_count",
        "reading_time_min", "keywords", "summary", "entities", "sections",
        "author", "created_at", "language"] ∧
      m.lookup "word_count" = some (.n (pySplit raw).length) ∧
      m.lookup "reading_time_min" =
        some (.q (pyRound2 (((pySplit raw).length : ℚ) / (wpm : ℚ)))) ∧
      m.lookup "filetype" = some (.s (pyLower (pyExt (pyBasename path)))) := by
  unfold generate_metadata
  rw [hf, hr]
  exact ⟨_, rfl, rfl, rfl, rfl, rfl⟩

/-- Witness for C5: a concrete `.txt` document with eleven words read at
200 words per minute. -/
theorem claim_C5_record_witness :
    ∃ m, generate_metadata (fun _ => Except.ok "one two three four five six seven eight nine ten eleven")
        (fun _ => Except.ok []) (fun _ => Except.ok []) (fun _ => Except.ok [])
        (fun _ => Except.ok none) (fun _ => Except.ok ⟨none, none⟩)
        ⟨fun _ => none, fun _ => [], fun _ => [], fun _ => [], [], fun _ => []⟩
        "docs/report.txt" 3 10 200 = Except.ok m ∧
      m.map Prod.fst = ["filename", "filetype", "title", "word_count",
        "reading_time_min", "keywords", "summary", "entities", "sections",
        "author", "created_at", "language"] ∧
      m.lookup "word_count" =
        some (.n (pySplit "one two three four five six seven eight nine ten eleven").length) ∧
      m.lookup "reading_time_min" =
        some (.q (pyRound2
          (((pySplit "one two three four five six seven eight nine ten eleven").length : ℚ) /
            ((200 : ℕ) : ℚ)))) ∧
      m.lookup "filetype" =
        some (.s (pyLower (pyExt (pyBasename "docs/report.txt")))) :=
  claim_C5_record (fun _ => Except.ok "one two three four five six seven eight nine ten eleven")
    (fun _ => Except.ok []) (fun _ => Except.ok []) (fun _ => Except.ok [])
    (fun _ => Except.ok none) (fun _ => Except.ok ⟨none, none⟩)
    ⟨fun _ => none, fun _ => [], fun _ => [], fun _ => [], [], fun _ => []⟩
    "docs/report.txt" 3 10 200 ("", "")
    "one two three four five six seven eight nine ten eleven" rfl rfl

end AutoMeta
